import Mathlib

/-!
Verification development for a point-to-point file transfer system
(one client, two server variants: a thread-pool server and a
process-pool server).  Byte strings are modelled as `List Nat`
(each element one byte), and the Python string/bytes primitives the
code uses (`strip`, `split`, `upper`, `lower`, substring test `in`,
`bytes.replace`, `base64.b64encode`, `base64.b64decode`) are embedded
as executable Lean functions with the same semantics.
-/

/-- Byte string of an ASCII literal. -/
def bytes (s : String) : List Nat := s.data.map Char.toNat

/-- Python whitespace predicate for the byte range used by `str.strip`
    and `str.split` (space, tab, LF, CR, VT, FF). -/
def isPySpace (c : Nat) : Bool :=
  c = 32 || c = 9 || c = 10 || c = 13 || c = 11 || c = 12

/-- Python `str.strip()` on a byte string. -/
def pyStrip (l : List Nat) : List Nat :=
  ((l.dropWhile isPySpace).reverse.dropWhile isPySpace).reverse

/-- Helper for `pySplit`: `acc` holds the (reversed) current token. -/
def pySplitGo : List Nat → List Nat → List (List Nat)
  | [], acc => if acc = [] then [] else [acc.reverse]
  | c :: rest, acc =>
    if isPySpace c then
      if acc = [] then pySplitGo rest [] else acc.reverse :: pySplitGo rest []
    else pySplitGo rest (c :: acc)

/-- Python `str.split()` with no separator: split on whitespace runs,
    never returning empty tokens. -/
def pySplit (l : List Nat) : List (List Nat) := pySplitGo l []

/-- Python `str.upper` on one ASCII byte. -/
def pyUpperByte (c : Nat) : Nat := if 97 ≤ c ∧ c ≤ 122 then c - 32 else c

/-- Python `str.upper` on an ASCII byte string. -/
def pyUpper (l : List Nat) : List Nat := l.map pyUpperByte

/-- Python `bytes.lower` on one ASCII byte. -/
def pyLowerByte (c : Nat) : Nat := if 65 ≤ c ∧ c ≤ 90 then c + 32 else c

/-- Python `bytes.lower` on a byte string. -/
def pyLower (l : List Nat) : List Nat := l.map pyLowerByte

/-- Python substring test `pat in hay` for bytes. -/
def containsSub (hay pat : List Nat) : Bool :=
  match hay with
  | [] => pat.isPrefixOf ([] : List Nat)
  | _ :: t => pat.isPrefixOf hay || containsSub t pat

/-- Recursion core of `listReplace`, structurally recursive on a fuel
    counter so it computes in the kernel; with nonempty `pat` every
    step strips at least one byte, so fuel `s.length` is never
    exhausted (the fuel-0 clause is unreachable then). -/
def listReplaceGo (pat : List Nat) : Nat → List Nat → List Nat
  | _, [] => []
  | 0, s => s
  | fuel + 1, c :: t =>
    if pat.isPrefixOf (c :: t) then listReplaceGo pat fuel ((c :: t).drop pat.length)
    else c :: listReplaceGo pat fuel t

/-- Python `hay.replace(pat, b'')` for bytes: delete every leftmost,
    non-overlapping occurrence of `pat` (with `b''.replace` semantics
    for the empty pattern: the string is returned unchanged). -/
def listReplace (s pat : List Nat) : List Nat :=
  if pat = [] then s else listReplaceGo pat s.length s

/-- Recursion core of `chunksOf`, structurally recursive on a fuel
    counter (unreachable fuel-0 clause as in `listReplaceGo`). -/
def chunksOfGo (n : Nat) : Nat → List Nat → List (List Nat)
  | _, [] => []
  | 0, l => [l]
  | fuel + 1, l => l.take n :: chunksOfGo n fuel (l.drop n)

/-- Split a byte string into consecutive blocks of `n` bytes (last block
    may be shorter); this is what a loop of `file.read(n)` /
    `connection.recv(n)`-style block reads over the whole content
    produces. -/
def chunksOf (n : Nat) (l : List Nat) : List (List Nat) :=
  if n = 0 then [] else chunksOfGo n l.length l

/-- Value of one base64 digit, as an ASCII byte
    (`base64.b64encode` output alphabet). -/
def b64char (n : Nat) : Nat :=
  if n < 26 then 65 + n
  else if n < 52 then 71 + n
  else if n < 62 then n - 4
  else if n = 62 then 43
  else 47

/-- Python `base64.b64encode`: standard base64 with `=` (61) padding,
    three input bytes per four output bytes. -/
def b64encode : List Nat → List Nat
  | [] => []
  | [a] => [b64char (a / 4), b64char (a % 4 * 16), 61, 61]
  | [a, b] => [b64char (a / 4), b64char (a % 4 * 16 + b / 16), b64char (b % 16 * 4), 61]
  | a :: b :: c :: rest =>
    b64char (a / 4) :: b64char (a % 4 * 16 + b / 16) ::
    b64char (b % 16 * 4 + c / 64) :: b64char (c % 64) :: b64encode rest

/-- Inverse digit table of the base64 alphabet (`None` for bytes the
    CPython decoder skips in non-strict mode). -/
def b64val (c : Nat) : Option Nat :=
  if 65 ≤ c ∧ c ≤ 90 then some (c - 65)
  else if 97 ≤ c ∧ c ≤ 122 then some (c - 71)
  else if 48 ≤ c ∧ c ≤ 57 then some (c + 4)
  else if c = 43 then some 62
  else if c = 47 then some 63
  else none

/-- Core loop of CPython `binascii.a2b_base64` in non-strict mode
    (what `base64.b64decode` calls): state is the position inside the
    current four-digit group (`qp`), the pending bits (`left`) and the
    count of consecutive pad bytes seen (`pads`).  A pad byte seen at
    group position ≥ 2 that completes the group ends decoding at once,
    ignoring the rest of the input; bytes outside the alphabet are
    skipped; input ending inside a group is an error (`none`). -/
def a2bAux : List Nat → Nat → Nat → Nat → Option (List Nat)
  | [], qp, _, _ => if qp = 0 then some [] else none
  | c :: rest, qp, left, pads =>
    if c = 61 then
      if 2 ≤ qp then
        if 4 ≤ qp + (pads + 1) then some []
        else a2bAux rest qp left (pads + 1)
      else a2bAux rest qp left pads
    else
      match b64val c with
      | none => a2bAux rest qp left pads
      | some v =>
        match qp with
        | 0 => a2bAux rest 1 v 0
        | 1 => ((left * 64 + v) / 16 :: ·) <$> a2bAux rest 2 ((left * 64 + v) % 16) 0
        | 2 => ((left * 64 + v) / 4 :: ·) <$> a2bAux rest 3 ((left * 64 + v) % 4) 0
        | _ => ((left * 64 + v) :: ·) <$> a2bAux rest 0 0 0

/-- Python `base64.b64decode` (`none` models a raised `binascii.Error`). -/
def pyB64Decode (l : List Nat) : Option (List Nat) := a2bAux l 0 0 0

/-- Block size `TRANSFER_BLOCK` / `DATA_CHUNK` / `CHUNK_SIZE`
    (1048576 bytes) shared by all three programs. -/
def TRANSFER_BLOCK : Nat := 1048576

/-- End-of-stream sentinel `b'__EOF__'` used by the client and the
    process-pool server. -/
def EOF_TOKEN : List Nat := bytes "__EOF__"

/-- End-of-stream sentinel `b'__COMPLETE__'` used by the thread-pool
    server. -/
def COMPLETE_TOKEN : List Nat := bytes "__COMPLETE__"

/-- Wire payload the client sends for a file content in
    `client_pool.perform_upload`: the file is read in
    `TRANSFER_BLOCK`-byte blocks and each block is base64-encoded by a
    separate `b64encode` call. -/
def uploadPayload (content : List Nat) : List Nat :=
  ((chunksOf TRANSFER_BLOCK content).map b64encode).flatten

/-- Full upload wire stream: payload then the `__EOF__` sentinel. -/
def uploadWire (content : List Nat) : List Nat := uploadPayload content ++ EOF_TOKEN

/-- Common receive loop of `perform_download`, the thread-pool `STORE`
    branch and the process-pool `UPLOAD` branch, applied to the
    successive results of `recv`: each read is tested *on its own* for
    the sentinel; on a hit the loop stops and the sentinel occurrences
    are deleted from that read; otherwise the read is appended and the
    loop continues.  `none` models reads exhausted with the sentinel
    never seen inside a single read: the loop does not terminate
    normally (it blocks until the socket timeout raises). -/
def recvUntilToken (tok : List Nat) : List (List Nat) → Option (List Nat)
  | [] => none
  | r :: rest =>
    if containsSub r tok then some (listReplace r tok)
    else (r ++ ·) <$> recvUntilToken tok rest

/-- Client-side result of `perform_download` given the successive
    `recv` results: accumulate until the sentinel is seen, delete it,
    then `base64.b64decode` the remainder. -/
def clientDownloadResult (reads : List (List Nat)) : Option (List Nat) :=
  recvUntilToken EOF_TOKEN reads >>= pyB64Decode

/-- Flat storage root: association list from filename to content
    (`server_storage`). -/
abbrev Storage := List (List Nat × List Nat)

/-- Content of a stored file, `none` when `os.path.exists` is false. -/
def storeGet (st : Storage) (name : List Nat) : Option (List Nat) :=
  match st with
  | [] => none
  | (n, c) :: t => if n = name then some c else storeGet t name

/-- Write a named file: silently overwrites an existing entry. -/
def storePut (st : Storage) (name content : List Nat) : Storage :=
  st.filter (fun p => decide (p.1 ≠ name)) ++ [(name, content)]

/-- Observable outcome of one handled connection: messages sent
    successfully on the socket, the deltas of the two shared operation
    counters, and the storage root afterwards. -/
structure HOut where
  sent : List (List Nat)
  dS : Nat
  dF : Nat
  storage : Storage
deriving DecidableEq

/-- Outer `except Exception` block shared by both handlers: a
    best-effort `connection.send(f'Error: {error}')` whose own failure
    is swallowed by `try/except: pass`, then one failure count.
    `sOuter` says whether that best-effort send succeeds. -/
def outerExcept (sOuter : Bool) (sent : List (List Nat)) (st : Storage) : HOut :=
  { sent := sent ++ if sOuter then [bytes "Error"] else [],
    dS := 0, dF := 1, storage := st }

/-- One terminating interaction of the thread-pool handler
    `process_client_request`: the first `recv` (`none` = it raised or
    the bytes were undecodable), the reads feeding the `STORE` receive
    loop, whether the two fallible file operations succeed, and whether
    each `send` site succeeds (`false` = the send raised, handing
    control to the enclosing `except`). -/
structure TScn where
  firstRecv : Option (List Nat)
  storage : Storage
  uploadReads : List (List Nat)
  storeWriteOk : Bool
  fetchReadOk : Bool
  sInvalid : Bool
  sDirList : Bool
  sStoreNeedName : Bool
  sReady : Bool
  sStoreDone : Bool
  sStoreErr : Bool
  sFetchNeedName : Bool
  sUnavailable : Bool
  sFetchData : Bool
  sComplete : Bool
  sFetchErr : Bool
  sUnknown : Bool
  sOuter : Bool
deriving DecidableEq

/-- Inner `except` of the thread-pool `STORE` branch: send
    `Storage error`, count one failure; if that send raises too, fall
    through to the outer handler. -/
def threadStoreErr (scn : TScn) (sent : List (List Nat)) (st : Storage) : HOut :=
  if scn.sStoreErr then
    { sent := sent ++ [bytes "Storage error"], dS := 0, dF := 1, storage := st }
  else outerExcept scn.sOuter sent st

/-- Commit phase of the thread-pool `STORE` branch: decode the
    accumulated bytes, write the destination file, send the success
    text, count one success; any failure goes to the inner `except`. -/
def threadStoreCommit (scn : TScn) (sent : List (List Nat)) (fname received : List Nat) :
    HOut :=
  match pyB64Decode received with
  | some content =>
    if scn.storeWriteOk then
      if scn.sStoreDone then
        { sent := sent ++ [bytes "File stored successfully"], dS := 1, dF := 0,
          storage := storePut scn.storage fname content }
      else outerExcept scn.sOuter sent (storePut scn.storage fname content)
    else threadStoreErr scn sent scn.storage
  | none => threadStoreErr scn sent scn.storage

/-- Thread-pool `STORE` branch after the filename check. -/
def threadStore (scn : TScn) (fname : List Nat) : HOut :=
  if scn.sReady then
    match recvUntilToken COMPLETE_TOKEN scn.uploadReads with
    | none => outerExcept scn.sOuter [bytes "READY_FOR_DATA"] scn.storage
    | some received => threadStoreCommit scn [bytes "READY_FOR_DATA"] fname received
  else outerExcept scn.sOuter [] scn.storage

/-- Inner `except` of the thread-pool `FETCH` branch. -/
def threadFetchErr (scn : TScn) (sent : List (List Nat)) : HOut :=
  if scn.sFetchErr then
    { sent := sent ++ [bytes "Retrieval error"], dS := 0, dF := 1, storage := scn.storage }
  else outerExcept scn.sOuter sent scn.storage

/-- Encoded blocks the thread-pool `FETCH` loop sends for a stored
    content: one `b64encode` call per `DATA_CHUNK`-byte block. -/
def threadFetchBlocks (content : List Nat) : List (List Nat) :=
  (chunksOf TRANSFER_BLOCK content).map b64encode

/-- Thread-pool `FETCH` branch after the filename check. -/
def threadFetch (scn : TScn) (fname : List Nat) : HOut :=
  match storeGet scn.storage fname with
  | none =>
    if scn.sUnavailable then
      { sent := [bytes "File unavailable"], dS := 0, dF := 1, storage := scn.storage }
    else outerExcept scn.sOuter [] scn.storage
  | some content =>
    if scn.fetchReadOk then
      if scn.sFetchData then
        if scn.sComplete then
          { sent := threadFetchBlocks content ++ [COMPLETE_TOKEN], dS := 1, dF := 0,
            storage := scn.storage }
        else threadFetchErr scn (threadFetchBlocks content)
      else threadFetchErr scn []
    else threadFetchErr scn []

/-- Command dispatch of the thread-pool handler on
    `request_data.strip().split()`. -/
def threadDispatch (scn : TScn) : List (List Nat) → HOut
  | [] =>
    if scn.sInvalid then
      { sent := [bytes "Invalid request format"], dS := 0, dF := 1, storage := scn.storage }
    else outerExcept scn.sOuter [] scn.storage
  | cmd :: args =>
    let action := pyUpper cmd
    if action = bytes "DIRECTORY" then
      let resp :=
        if scn.storage.map Prod.fst = [] then bytes "Directory empty"
        else List.intercalate [10] (scn.storage.map Prod.fst)
      if scn.sDirList then { sent := [resp], dS := 1, dF := 0, storage := scn.storage }
      else outerExcept scn.sOuter [] scn.storage
    else if action = bytes "STORE" then
      match args with
      | [] =>
        if scn.sStoreNeedName then
          { sent := [bytes "Filename required"], dS := 0, dF := 1, storage := scn.storage }
        else outerExcept scn.sOuter [] scn.storage
      | fname :: _ => threadStore scn fname
    else if action = bytes "FETCH" then
      match args with
      | [] =>
        if scn.sFetchNeedName then
          { sent := [bytes "Filename required"], dS := 0, dF := 1, storage := scn.storage }
        else outerExcept scn.sOuter [] scn.storage
      | fname :: _ => threadFetch scn fname
    else
      if scn.sUnknown then
        { sent := [bytes "Unrecognized command"], dS := 0, dF := 1, storage := scn.storage }
      else outerExcept scn.sOuter [] scn.storage

/-- Thread-pool server connection handler `process_client_request`
    (server_threadpool.py).  The emptiness test is on the *unstripped*
    first line; on an empty line it counts a failure and returns
    without sending anything. -/
def process_client_request (scn : TScn) : HOut :=
  match scn.firstRecv with
  | none => outerExcept scn.sOuter [] scn.storage
  | some line =>
    if line = [] then { sent := [], dS := 0, dF := 1, storage := scn.storage }
    else threadDispatch scn (pySplit (pyStrip line))

/-- One terminating interaction of the process-pool handler
    `manage_connection`, with the same conventions as `TScn`.  The
    staged temp file of `UPLOAD` always exists here (it was just
    written by this very handler), so the `Temp file missing` guard of
    `execute_command` cannot fire in a single-connection scenario. -/
structure PScn where
  firstRecv : Option (List Nat)
  storage : Storage
  uploadReads : List (List Nat)
  destWriteOk : Bool
  retrieveReadOk : Bool
  sInvalid : Bool
  sList : Bool
  sUpNeedName : Bool
  sProceed : Bool
  sUpResp : Bool
  sDownNeedName : Bool
  sUnavailResp : Bool
  sDownResp : Bool
  sUnknown : Bool
  sOuter : Bool
deriving DecidableEq

/-- `execute_command 'LIST_FILES'` (server_processpool.py). -/
def executeListFiles (st : Storage) : List Nat :=
  if st.map Prod.fst = [] then bytes "Empty directory"
  else List.intercalate [10] (st.map Prod.fst)

/-- `execute_command 'STORE_FILE'`: the staged temp file holds the raw
    received (still encoded) bytes; decode them and write the
    destination.  Returns (response bytes, storage afterwards); decode
    or write failures are caught inside `execute_command` and become an
    `Operation failed: ...` text. -/
def executeStoreFile (st : Storage) (fname received : List Nat) (destWriteOk : Bool) :
    List Nat × Storage :=
  match pyB64Decode received with
  | some content =>
    if destWriteOk then (bytes "File stored successfully", storePut st fname content)
    else (bytes "Operation failed: write error", st)
  | none => (bytes "Operation failed: decode error", st)

/-- `execute_command 'RETRIEVE_FILE'`: whole-file read, a single
    `b64encode` call, then the `__EOF__` sentinel. -/
def executeRetrieveFile (st : Storage) (fname : List Nat) (readOk : Bool) : List Nat :=
  match storeGet st fname with
  | none => bytes "File unavailable"
  | some content =>
    if readOk then b64encode content ++ EOF_TOKEN
    else bytes "Operation failed: read error"

/-- Process-pool `UPLOAD` branch after the filename check: send
    `PROCEED`, stage the received bytes, run `STORE_FILE` on a worker,
    forward its response, then count success exactly when the response
    contains `success` (lower-cased). -/
def processUpload (scn : PScn) (fname : List Nat) : HOut :=
  if scn.sProceed then
    match recvUntilToken EOF_TOKEN scn.uploadReads with
    | none => outerExcept scn.sOuter [bytes "PROCEED"] scn.storage
    | some received =>
      let r := executeStoreFile scn.storage fname received scn.destWriteOk
      if scn.sUpResp then
        if containsSub (pyLower r.1) (bytes "success") then
          { sent := [bytes "PROCEED", r.1], dS := 1, dF := 0, storage := r.2 }
        else { sent := [bytes "PROCEED", r.1], dS := 0, dF := 1, storage := r.2 }
      else outerExcept scn.sOuter [bytes "PROCEED"] r.2
  else outerExcept scn.sOuter [] scn.storage

/-- Process-pool `DOWNLOAD` branch after the filename check: run
    `RETRIEVE_FILE` on a worker and route on whether the response
    contains `unavailable` (lower-cased). -/
def processDownload (scn : PScn) (fname : List Nat) : HOut :=
  let resp := executeRetrieveFile scn.storage fname scn.retrieveReadOk
  if containsSub (pyLower resp) (bytes "unavailable") then
    if scn.sUnavailResp then
      { sent := [resp], dS := 0, dF := 1, storage := scn.storage }
    else outerExcept scn.sOuter [] scn.storage
  else
    if scn.sDownResp then
      { sent := [resp], dS := 1, dF := 0, storage := scn.storage }
    else outerExcept scn.sOuter [] scn.storage

/-- Command dispatch of the process-pool handler on `request.split()`. -/
def processDispatch (scn : PScn) : List (List Nat) → HOut
  | [] =>
    if scn.sInvalid then
      { sent := [bytes "Invalid request"], dS := 0, dF := 1, storage := scn.storage }
    else outerExcept scn.sOuter [] scn.storage
  | cmd :: args =>
    let operation := pyUpper cmd
    if operation = bytes "LIST" then
      if scn.sList then
        { sent := [executeListFiles scn.storage], dS := 1, dF := 0, storage := scn.storage }
      else outerExcept scn.sOuter [] scn.storage
    else if operation = bytes "UPLOAD" then
      match args with
      | [] =>
        if scn.sUpNeedName then
          { sent := [bytes "Missing filename"], dS := 0, dF := 1, storage := scn.storage }
        else outerExcept scn.sOuter [] scn.storage
      | fname :: _ => processUpload scn fname
    else if operation = bytes "DOWNLOAD" then
      match args with
      | [] =>
        if scn.sDownNeedName then
          { sent := [bytes "Missing filename"], dS := 0, dF := 1, storage := scn.storage }
        else outerExcept scn.sOuter [] scn.storage
      | fname :: _ => processDownload scn fname
    else
      if scn.sUnknown then
        { sent := [bytes "Unknown operation"], dS := 0, dF := 1, storage := scn.storage }
      else outerExcept scn.sOuter [] scn.storage

/-- Process-pool server connection handler `manage_connection`
    (server_processpool.py).  Unlike the thread-pool variant, the first
    line is stripped *before* the emptiness test, so a whitespace-only
    line is treated as empty: one failure count and no response. -/
def manage_connection (scn : PScn) : HOut :=
  match scn.firstRecv with
  | none => outerExcept scn.sOuter [] scn.storage
  | some line =>
    let request := pyStrip line
    if request = [] then { sent := [], dS := 0, dF := 1, storage := scn.storage }
    else processDispatch scn (pySplit request)

/-- Byte stream the thread-pool server emits on a successful `FETCH`
    of a stored content: the concatenation of its per-block sends,
    then its sentinel. -/
def threadFetchStream (content : List Nat) : List Nat :=
  (threadFetchBlocks content).flatten ++ COMPLETE_TOKEN

/-- Byte stream the process-pool server emits on a successful
    `DOWNLOAD` of a stored content (`RETRIEVE_FILE` result): one
    whole-file encoding, then its sentinel. -/
def processFetchStream (content : List Nat) : List Nat :=
  b64encode content ++ EOF_TOKEN

/-- End-to-end happy path of `perform_upload` then `perform_download`
    against the process-pool server: the whole upload wire stream
    arrives in one read of the server's receive loop, the server
    decodes and stores it, and the download stream for the stored
    content arrives in one read of the client's receive loop. -/
def uploadThenDownload (content : List Nat) : Option (List Nat) :=
  (recvUntilToken EOF_TOKEN [uploadWire content]).bind fun received =>
    (pyB64Decode received).bind fun stored =>
      clientDownloadResult [processFetchStream stored]

/-- Exactly one of the two shared operation counters moved, by one. -/
def exactlyOne (o : HOut) : Prop := (o.dS = 1 ∧ o.dF = 0) ∨ (o.dS = 0 ∧ o.dF = 1)

/-- Thread-pool scenario template: no first line yet, empty storage,
    every send and file operation succeeds. -/
def tScn0 : TScn :=
  { firstRecv := none, storage := [], uploadReads := [], storeWriteOk := true,
    fetchReadOk := true, sInvalid := true, sDirList := true, sStoreNeedName := true,
    sReady := true, sStoreDone := true, sStoreErr := true, sFetchNeedName := true,
    sUnavailable := true, sFetchData := true, sComplete := true, sFetchErr := true,
    sUnknown := true, sOuter := true }

/-- Process-pool scenario template, as `tScn0`. -/
def pScn0 : PScn :=
  { firstRecv := none, storage := [], uploadReads := [], destWriteOk := true,
    retrieveReadOk := true, sInvalid := true, sList := true, sUpNeedName := true,
    sProceed := true, sUpResp := true, sDownNeedName := true, sUnavailResp := true,
    sDownResp := true, sUnknown := true, sOuter := true }

/-! Lemmas about the base64 alphabet and decoder. -/

theorem b64char_ne_95 (n : Nat) : b64char n ≠ 95 := by
  unfold b64char
  repeat' split
  all_goals omega

theorem b64char_ne_pad {n : Nat} (h : n < 64) : b64char n ≠ 61 := by
  unfold b64char
  repeat' split
  all_goals omega

theorem b64val_b64char {n : Nat} (h : n < 64) : b64val (b64char n) = some n := by
  interval_cases n <;> decide

/-- Induction along the four-way recursion pattern of `b64encode`. -/
theorem b64rec_aux {P : List Nat → Prop} (h0 : P []) (h1 : ∀ a, P [a])
    (h2 : ∀ a b, P [a, b]) (h3 : ∀ a b d t, P t → P (a :: b :: d :: t)) :
    ∀ (n : Nat) (c : List Nat), c.length ≤ n → P c := by
  intro n
  induction n with
  | zero =>
    intro c hle
    have hc : c = [] := List.length_eq_zero.mp (Nat.le_zero.mp hle)
    exact hc ▸ h0
  | succ n ih =>
    intro c hle
    match c with
    | [] => exact h0
    | [a] => exact h1 a
    | [a, b] => exact h2 a b
    | a :: b :: d :: t =>
      refine h3 a b d t (ih t ?_)
      simp at hle
      omega

theorem b64rec {P : List Nat → Prop} (h0 : P []) (h1 : ∀ a, P [a])
    (h2 : ∀ a b, P [a, b]) (h3 : ∀ a b d t, P t → P (a :: b :: d :: t))
    (c : List Nat) : P c :=
  b64rec_aux h0 h1 h2 h3 c.length c le_rfl

/-- The base64 encoder never emits an underscore byte. -/
theorem b64encode_ne_95 (x : List Nat) : 95 ∉ b64encode x := by
  induction x using b64rec with
  | h0 => simp [b64encode]
  | h1 a =>
    intro h
    simp [b64encode] at h
    rcases h with h | h <;> exact b64char_ne_95 _ h.symm
  | h2 a b =>
    intro h
    simp [b64encode] at h
    rcases h with h | h | h <;> exact b64char_ne_95 _ h.symm
  | h3 a b d t ih =>
    intro h
    simp [b64encode] at h
    rcases h with h | h | h | h | h
    · exact b64char_ne_95 _ h.symm
    · exact b64char_ne_95 _ h.symm
    · exact b64char_ne_95 _ h.symm
    · exact b64char_ne_95 _ h.symm
    · exact ih h

/-! Step lemmas for the decoder on one input byte. -/

theorem a2b_step0 {c v : Nat} (hv : b64val c = some v) (hne : c ≠ 61)
    (rest : List Nat) (left pads : Nat) :
    a2bAux (c :: rest) 0 left pads = a2bAux rest 1 v 0 := by
  simp [a2bAux, hne, hv]

theorem a2b_step1 {c v : Nat} (hv : b64val c = some v) (hne : c ≠ 61)
    (rest : List Nat) (left pads : Nat) :
    a2bAux (c :: rest) 1 left pads
      = ((left * 64 + v) / 16 :: ·) <$> a2bAux rest 2 ((left * 64 + v) % 16) 0 := by
  simp [a2bAux, hne, hv]

theorem a2b_step2 {c v : Nat} (hv : b64val c = some v) (hne : c ≠ 61)
    (rest : List Nat) (left pads : Nat) :
    a2bAux (c :: rest) 2 left pads
      = ((left * 64 + v) / 4 :: ·) <$> a2bAux rest 3 ((left * 64 + v) % 4) 0 := by
  simp [a2bAux, hne, hv]

theorem a2b_step3 {c v : Nat} (hv : b64val c = some v) (hne : c ≠ 61)
    (rest : List Nat) (left pads : Nat) :
    a2bAux (c :: rest) 3 left pads
      = ((left * 64 + v) :: ·) <$> a2bAux rest 0 0 0 := by
  simp [a2bAux, hne, hv]

theorem a2b_pad2_first (rest : List Nat) (left : Nat) :
    a2bAux (61 :: rest) 2 left 0 = a2bAux rest 2 left 1 := by
  simp [a2bAux]

theorem a2b_pad2_second (rest : List Nat) (left : Nat) :
    a2bAux (61 :: rest) 2 left 1 = some [] := by
  simp [a2bAux]

/-- One full four-digit group of encoder output decodes to its three
    source bytes and leaves the decoder at group position 0. -/
theorem a2b_quad (a b d : Nat) (ha : a < 256) (hb : b < 256) (hd : d < 256)
    (s : List Nat) :
    a2bAux (b64char (a / 4) :: b64char (a % 4 * 16 + b / 16) ::
            b64char (b % 16 * 4 + d / 64) :: b64char (d % 64) :: s) 0 0 0
      = (fun t => a :: b :: d :: t) <$> a2bAux s 0 0 0 := by
  have h1 : a / 4 < 64 := by omega
  have h2 : a % 4 * 16 + b / 16 < 64 := by omega
  have h3 : b % 16 * 4 + d / 64 < 64 := by omega
  have h4 : d % 64 < 64 := by omega
  rw [a2b_step0 (b64val_b64char h1) (b64char_ne_pad h1)]
  rw [a2b_step1 (b64val_b64char h2) (b64char_ne_pad h2)]
  have e1 : (a / 4 * 64 + (a % 4 * 16 + b / 16)) / 16 = a := by omega
  have e1m : (a / 4 * 64 + (a % 4 * 16 + b / 16)) % 16 = b / 16 := by omega
  rw [e1, e1m]
  rw [a2b_step2 (b64val_b64char h3) (b64char_ne_pad h3)]
  have e2 : (b / 16 * 64 + (b % 16 * 4 + d / 64)) / 4 = b := by omega
  have e2m : (b / 16 * 64 + (b % 16 * 4 + d / 64)) % 4 = d / 64 := by omega
  rw [e2, e2m]
  rw [a2b_step3 (b64val_b64char h4) (b64char_ne_pad h4)]
  have e3 : d / 64 * 64 + d % 64 = d := by omega
  rw [e3]
  cases a2bAux s 0 0 0 <;> rfl

/-- The encoder output for a single trailing byte ends in two pads; the
    decoder emits that byte and then stops, ignoring everything after
    the pads. -/
theorem a2b_single (a : Nat) (ha : a < 256) (rest : List Nat) :
    a2bAux (b64char (a / 4) :: b64char (a % 4 * 16) :: 61 :: 61 :: rest) 0 0 0
      = some [a] := by
  have h1 : a / 4 < 64 := by omega
  have h2 : a % 4 * 16 < 64 := by omega
  rw [a2b_step0 (b64val_b64char h1) (b64char_ne_pad h1)]
  rw [a2b_step1 (b64val_b64char h2) (b64char_ne_pad h2)]
  have e1 : (a / 4 * 64 + a % 4 * 16) / 16 = a := by omega
  have e1m : (a / 4 * 64 + a % 4 * 16) % 16 = 0 := by omega
  rw [e1, e1m]
  rw [a2b_pad2_first, a2b_pad2_second]
  rfl

/-- Key decoder behaviour behind the transfer bug: when a block whose
    length is `3k+1` is encoded on its own, the decoder applied to that
    encoding followed by *anything else* returns exactly the block and
    ignores the rest, because the two pad bytes of the block's last
    group end decoding. -/
theorem a2b_encode_stop (c : List Nat) (hb : ∀ x ∈ c, x < 256)
    (hl : c.length % 3 = 1) (rest : List Nat) :
    a2bAux (b64encode c ++ rest) 0 0 0 = some c := by
  induction c using b64rec generalizing rest with
  | h0 => simp at hl
  | h1 a =>
    have ha : a < 256 := hb a (by simp)
    simpa [b64encode] using a2b_single a ha rest
  | h2 a b => simp at hl
  | h3 a b d t ih =>
    have ha : a < 256 := hb a (by simp)
    have hbb : b < 256 := hb b (by simp)
    have hd : d < 256 := hb d (by simp)
    have ht : ∀ x ∈ t, x < 256 := fun x hx => hb x (by simp [hx])
    have htl : t.length % 3 = 1 := by simp at hl; omega
    rw [b64encode]
    simp only [List.cons_append]
    rw [a2b_quad a b d ha hbb hd (b64encode t ++ rest), ih ht htl rest]
    rfl

/-! Lemmas about prefixes, `listReplace`, `containsSub`, `chunksOf`. -/

theorem isPrefixOf_append_self (p t : List Nat) : p.isPrefixOf (p ++ t) = true := by
  induction p with
  | nil => cases t <;> rfl
  | cons a as ih => simp [List.isPrefixOf, ih]

theorem isPrefixOf_head_ne {p : List Nat} {c : Nat} (t : List Nat)
    (hp : p.head? = some 95) (hc : c ≠ 95) : p.isPrefixOf (c :: t) = false := by
  cases p with
  | nil => simp at hp
  | cons q qs =>
    simp at hp
    subst hp
    have hbe : (95 == c) = false := beq_eq_false_iff_ne.mpr (Ne.symm hc)
    simp [List.isPrefixOf, hbe]

theorem listReplaceGo_nilr (pat : List Nat) (fuel : Nat) :
    listReplaceGo pat fuel [] = [] := by
  cases fuel <;> rfl

theorem listReplaceGo_succ (pat : List Nat) (fuel : Nat) (c : Nat) (t : List Nat) :
    listReplaceGo pat (fuel + 1) (c :: t)
      = if pat.isPrefixOf (c :: t) then listReplaceGo pat fuel ((c :: t).drop pat.length)
        else c :: listReplaceGo pat fuel t := rfl

theorem listReplaceGo_strip (pat : List Nat) (hp : pat.head? = some 95) :
    ∀ (a : List Nat) (fuel : Nat), (∀ c ∈ a, c ≠ 95) → (a ++ pat).length ≤ fuel →
      listReplaceGo pat fuel (a ++ pat) = a := by
  intro a
  induction a with
  | nil =>
    intro fuel _ hle
    cases pat with
    | nil => simp at hp
    | cons q qs =>
      cases fuel with
      | zero => simp at hle
      | succ f =>
        have hpre : (q :: qs).isPrefixOf (q :: qs) = true := by
          have h := isPrefixOf_append_self (q :: qs) []
          rwa [List.append_nil] at h
        simp only [List.nil_append, listReplaceGo_succ, hpre, if_true]
        rw [List.drop_length, listReplaceGo_nilr]
  | cons c a' ih =>
    intro fuel hne hle
    have hc : c ≠ 95 := hne c (by simp)
    cases fuel with
    | zero => simp at hle
    | succ f =>
      simp only [List.cons_append, listReplaceGo_succ,
        isPrefixOf_head_ne (a' ++ pat) hp hc, Bool.false_eq_true, if_false]
      congr 1
      apply ih f (fun x hx => hne x (by simp [hx]))
      simp at hle ⊢
      omega

/-- Deleting every occurrence of an underscore-headed token from
    `payload ++ token` where the payload has no underscore byte strips
    exactly the trailing token. -/
theorem listReplace_strip (a pat : List Nat) (hp : pat.head? = some 95)
    (ha : ∀ c ∈ a, c ≠ 95) : listReplace (a ++ pat) pat = a := by
  have hne : pat ≠ [] := by cases pat <;> simp_all
  simp only [listReplace, if_neg hne]
  exact listReplaceGo_strip pat hp a (a ++ pat).length ha le_rfl

theorem containsSub_append_self (a pat : List Nat) (hp : pat ≠ []) :
    containsSub (a ++ pat) pat = true := by
  induction a with
  | nil =>
    cases pat with
    | nil => exact absurd rfl hp
    | cons q qs =>
      have hpre : (q :: qs).isPrefixOf (q :: qs) = true := by
        have h := isPrefixOf_append_self (q :: qs) []
        rwa [List.append_nil] at h
      simp [containsSub, hpre]
  | cons c a' ih => simp [containsSub, ih]

theorem recvUntilToken_single (tok r : List Nat) :
    recvUntilToken tok [r]
      = if containsSub r tok then some (listReplace r tok) else none := by
  simp [recvUntilToken]

theorem chunksOfGo_nil (n fuel : Nat) : chunksOfGo n fuel [] = [] := by
  cases fuel <;> rfl

theorem chunksOfGo_succ (n fuel : Nat) (c : Nat) (t : List Nat) :
    chunksOfGo n (fuel + 1) (c :: t)
      = (c :: t).take n :: chunksOfGo n fuel ((c :: t).drop n) := rfl

theorem chunksOfGo_single (n fuel : Nat) (c : Nat) (t : List Nat)
    (h : (c :: t).length ≤ n) : chunksOfGo n fuel (c :: t) = [c :: t] := by
  cases fuel with
  | zero => rfl
  | succ f =>
    rw [chunksOfGo_succ, List.take_of_length_le h, List.drop_eq_nil_of_le h, chunksOfGo_nil]

theorem chunksOf_nil (n : Nat) : chunksOf n [] = [] := by
  simp [chunksOf, chunksOfGo_nil]

/-- A nonempty content of at most one block is one chunk. -/
theorem chunksOf_single (n : Nat) (l : List Nat) (hn : n ≠ 0) (hnil : l ≠ [])
    (h : l.length ≤ n) : chunksOf n l = [l] := by
  cases l with
  | nil => exact absurd rfl hnil
  | cons c t =>
    simp only [chunksOf, if_neg hn]
    exact chunksOfGo_single n (c :: t).length c t h

/-- A content of more than one and at most two blocks is two chunks. -/
theorem chunksOf_two (n : Nat) (l : List Nat) (hn : n ≠ 0) (h1 : n < l.length)
    (h2 : l.length ≤ 2 * n) : chunksOf n l = [l.take n, l.drop n] := by
  cases l with
  | nil => simp at h1
  | cons c t =>
    have hlc : (c :: t).length = t.length + 1 := by simp
    simp only [chunksOf, if_neg hn, List.length_cons, chunksOfGo_succ]
    congr 1
    cases hd : (c :: t).drop n with
    | nil =>
      have hd' := congrArg List.length hd
      rw [List.length_drop, hlc] at hd'
      simp at hd'
      omega
    | cons d u =>
      rw [← hd]
      have hlen : ((c :: t).drop n).length ≤ n := by
        rw [List.length_drop, hlc]
        omega
      rw [hd] at hlen ⊢
      exact chunksOfGo_single n t.length d u hlen

/-- The chunked upload payload contains no underscore byte. -/
theorem uploadPayload_no95 (x : List Nat) : 95 ∉ uploadPayload x := by
  intro h
  simp only [uploadPayload, List.mem_flatten, List.mem_map] at h
  obtain ⟨l, ⟨c, _, hc⟩, h95⟩ := h
  exact b64encode_ne_95 c (hc ▸ h95)

/-- C2 (code_bug evidence): the receive loops of `perform_download`
    (client), the thread-pool `STORE` branch and the process-pool
    `UPLOAD` branch test each `recv` result in isolation, so an
    end-of-stream sentinel whose bytes straddle two reads is never
    detected (the loop keeps waiting), even though the sentinel does
    occur in the concatenation of the two reads.  Shown for both
    sentinel tokens at a concrete two-read split. -/
theorem sentinel_straddle_missed :
    recvUntilToken EOF_TOKEN [bytes "QUJD__EO", bytes "F__"] = none
      ∧ containsSub (bytes "QUJD__EO" ++ bytes "F__") EOF_TOKEN = true
      ∧ recvUntilToken COMPLETE_TOKEN [bytes "QUJD__COMPLE", bytes "TE__"] = none
      ∧ containsSub (bytes "QUJD__COMPLE" ++ bytes "TE__") COMPLETE_TOKEN = true := by
  decide

/-- C1 (code_bug evidence): for a file one byte longer than
    `TRANSFER_BLOCK`, the sender-side wire encoding of
    `perform_upload` (one `b64encode` call per block) is *not*
    inverted by the receiver-side `b64decode`: because `1048576 % 3 =
    1`, the first block's encoding ends in two pad bytes, and the
    decoder stops there, returning only the first block. -/
theorem upload_roundtrip_truncates (x : List Nat) (hb : ∀ b ∈ x, b < 256)
    (hl : x.length = 1048577) :
    pyB64Decode (uploadPayload x) = some (x.take 1048576)
      ∧ x.take 1048576 ≠ x := by
  have hchunks : chunksOf TRANSFER_BLOCK x = [x.take 1048576, x.drop 1048576] := by
    apply chunksOf_two <;> simp [TRANSFER_BLOCK, hl]
  have hpayload : uploadPayload x
      = b64encode (x.take 1048576) ++ b64encode (x.drop 1048576) := by
    simp [uploadPayload, hchunks]
  have htake : (x.take 1048576).length = 1048576 := by simp [hl]
  constructor
  · rw [hpayload]
    unfold pyB64Decode
    refine a2b_encode_stop _ (fun b hb' => hb b (List.take_subset _ _ hb')) ?_ _
    rw [htake]
  · intro he
    have hlen := congrArg List.length he
    rw [htake, hl] at hlen
    omega

/-- Witness for `upload_roundtrip_truncates` at the all-zero file of
    1048577 bytes. -/
theorem upload_roundtrip_truncates_witness :
    (∀ b ∈ List.replicate 1048577 (0 : Nat), b < 256)
      ∧ (List.replicate 1048577 (0 : Nat)).length = 1048577
      ∧ pyB64Decode (uploadPayload (List.replicate 1048577 (0 : Nat)))
          = some ((List.replicate 1048577 (0 : Nat)).take 1048576)
      ∧ (List.replicate 1048577 (0 : Nat)).take 1048576
          ≠ List.replicate 1048577 (0 : Nat) := by
  have h1 : ∀ b ∈ List.replicate 1048577 (0 : Nat), b < 256 := by
    intro b hb
    rw [List.eq_of_mem_replicate hb]
    omega
  have h2 : (List.replicate 1048577 (0 : Nat)).length = 1048577 :=
    List.length_replicate 1048577 0
  exact ⟨h1, h2, (upload_roundtrip_truncates _ h1 h2).1,
    (upload_roundtrip_truncates _ h1 h2).2⟩

/-- C9: the wire encoding's output alphabet contains no underscore
    byte, so the sentinel tokens (which begin with `__`) can never
    occur inside an encoded payload, and deleting every occurrence of a
    sentinel from `encoded ++ sentinel` — which is what the receivers'
    `replace` call does — is the same as stripping the single trailing
    sentinel the sender appended.  Holds for both variants' tokens. -/
theorem sentinel_disjoint_replace_strip (x : List Nat) :
    95 ∉ b64encode x
      ∧ listReplace (b64encode x ++ EOF_TOKEN) EOF_TOKEN = b64encode x
      ∧ listReplace (b64encode x ++ COMPLETE_TOKEN) COMPLETE_TOKEN = b64encode x := by
  refine ⟨b64encode_ne_95 x, ?_, ?_⟩
  · exact listReplace_strip _ _ (by decide)
      (fun c hc he => b64encode_ne_95 x (he ▸ hc))
  · exact listReplace_strip _ _ (by decide)
      (fun c hc he => b64encode_ne_95 x (he ▸ hc))

/-- C7 (code_bug evidence): on the happy path, uploading a file one
    byte longer than one block and downloading it back under the same
    name succeeds at every protocol step yet returns only the first
    1048576 bytes of the original content. -/
theorem upload_download_truncates (x : List Nat) (hb : ∀ b ∈ x, b < 256)
    (hl : x.length = 1048577) :
    uploadThenDownload x = some (x.take 1048576) ∧ x.take 1048576 ≠ x := by
  obtain ⟨hdec, hne⟩ := upload_roundtrip_truncates x hb hl
  refine ⟨?_, hne⟩
  have hcont : containsSub (uploadPayload x ++ EOF_TOKEN) EOF_TOKEN = true :=
    containsSub_append_self _ _ (by decide)
  have hstrip : listReplace (uploadPayload x ++ EOF_TOKEN) EOF_TOKEN = uploadPayload x :=
    listReplace_strip _ _ (by decide) (fun c hc he => uploadPayload_no95 x (he ▸ hc))
  have h1 : recvUntilToken EOF_TOKEN [uploadWire x] = some (uploadPayload x) := by
    rw [uploadWire, recvUntilToken_single, if_pos hcont, hstrip]
  have htake256 : ∀ b ∈ x.take 1048576, b < 256 :=
    fun b h => hb b (List.take_subset _ _ h)
  have htakelen : (x.take 1048576).length = 1048576 := by
    rw [List.length_take, hl]
    omega
  have hcont2 : containsSub (b64encode (x.take 1048576) ++ EOF_TOKEN) EOF_TOKEN = true :=
    containsSub_append_self _ _ (by decide)
  have hstrip2 : listReplace (b64encode (x.take 1048576) ++ EOF_TOKEN) EOF_TOKEN
      = b64encode (x.take 1048576) :=
    (sentinel_disjoint_replace_strip (x.take 1048576)).2.1
  have hdec2 : pyB64Decode (b64encode (x.take 1048576)) = some (x.take 1048576) := by
    have hs := a2b_encode_stop (x.take 1048576) htake256 (by rw [htakelen]) []
    rwa [List.append_nil] at hs
  rw [uploadThenDownload, h1, Option.some_bind, hdec, Option.some_bind,
    clientDownloadResult, processFetchStream, recvUntilToken_single,
    if_pos hcont2, hstrip2]
  show pyB64Decode (b64encode (x.take 1048576)) = some (x.take 1048576)
  exact hdec2

/-- Witness for `upload_download_truncates` at the all-zero file of
    1048577 bytes. -/
theorem upload_download_truncates_witness :
    (∀ b ∈ List.replicate 1048577 (0 : Nat), b < 256)
      ∧ (List.replicate 1048577 (0 : Nat)).length = 1048577
      ∧ uploadThenDownload (List.replicate 1048577 (0 : Nat))
          = some ((List.replicate 1048577 (0 : Nat)).take 1048576)
      ∧ (List.replicate 1048577 (0 : Nat)).take 1048576
          ≠ List.replicate 1048577 (0 : Nat) := by
  have h1 : ∀ b ∈ List.replicate 1048577 (0 : Nat), b < 256 := by
    intro b hb
    rw [List.eq_of_mem_replicate hb]
    omega
  have h2 : (List.replicate 1048577 (0 : Nat)).length = 1048577 :=
    List.length_replicate 1048577 0
  exact ⟨h1, h2, (upload_download_truncates _ h1 h2).1,
    (upload_download_truncates _ h1 h2).2⟩

/-- C3 counterexample: already for the empty stored file the two
    server variants emit different byte streams on a successful fetch —
    the thread-pool variant sends only `__COMPLETE__` while the
    process-pool variant sends only `__EOF__`. -/
theorem fetch_streams_differ :
    threadFetchStream [] ≠ processFetchStream [] := by decide

/-! Shape of the emitted fetch streams.  The nontrivial facts: a file
    larger than one block makes the thread-pool stream differ from the
    whole-file encoding (the first block, of length `3k+1`, ends in two
    pad bytes at offsets 1398102-1398103, where the whole-file encoding
    still has alphabet digits), and the two variants' streams always
    differ in their 7-byte suffix. -/

theorem b64char_ne_61 (n : Nat) : b64char n ≠ 61 := by
  unfold b64char
  repeat' split
  all_goals omega

theorem b64encode_length (l : List Nat) :
    (b64encode l).length = 4 * ((l.length + 2) / 3) := by
  induction l using b64rec with
  | h0 => rfl
  | h1 a => simp [b64encode]
  | h2 a b => simp [b64encode]
  | h3 a b c t ih =>
    simp only [b64encode, List.length_cons, ih]
    omega

/-- At an offset two bytes into any four-digit group that has at least
    two source bytes, the encoder output is an alphabet digit, never a
    pad byte. -/
theorem b64encode_drop_ne_61 : ∀ (k : Nat) (l : List Nat), 3 * k + 2 ≤ l.length →
    ((b64encode l).drop (4 * k + 2)).head? ≠ some 61 := by
  intro k
  induction k with
  | zero =>
    intro l hl
    match l with
    | [] =>
      simp only [List.length_nil] at hl
      omega
    | [a] =>
      simp only [List.length_cons, List.length_nil] at hl
      omega
    | [a, b] =>
      intro h
      simp [b64encode] at h
      exact b64char_ne_61 _ h
    | a :: b :: c :: t =>
      intro h
      simp [b64encode] at h
      exact b64char_ne_61 _ h
  | succ k ih =>
    intro l hl
    match l with
    | [] =>
      simp only [List.length_nil] at hl
      omega
    | [a] =>
      simp only [List.length_cons, List.length_nil] at hl
      omega
    | [a, b] =>
      simp only [List.length_cons, List.length_nil] at hl
      omega
    | a :: b :: c :: t =>
      have he : 4 * (k + 1) + 2 = 4 * k + 2 + 1 + 1 + 1 + 1 := by omega
      rw [he]
      simp only [b64encode, List.drop_succ_cons]
      refine ih t ?_
      simp only [List.length_cons] at hl
      omega

/-- A block of length `3k+1` ends its encoding with the two pad bytes
    at offset `4k+2`. -/
theorem b64encode_drop_last_pads (l : List Nat) :
    l.length % 3 = 1 → (b64encode l).drop (4 * (l.length / 3) + 2) = [61, 61] := by
  induction l using b64rec with
  | h0 => intro h; simp at h
  | h1 a => intro h; simp [b64encode]
  | h2 a b => intro h; simp at h
  | h3 a b c t ih =>
    intro h
    have hlc : (a :: b :: c :: t).length = t.length + 3 := by simp
    rw [hlc] at h ⊢
    have he : 4 * ((t.length + 3) / 3) + 2 = 4 * (t.length / 3) + 2 + 1 + 1 + 1 + 1 := by
      omega
    rw [he]
    simp only [b64encode, List.drop_succ_cons]
    exact ih (by omega)

/-- With a nonzero block size, `chunksOfGo` ignores the exact fuel as
    long as it covers the list length. -/
theorem chunksOfGo_fuel (n : Nat) (hn : n ≠ 0) : ∀ (f1 f2 : Nat) (l : List Nat),
    l.length ≤ f1 → l.length ≤ f2 → chunksOfGo n f1 l = chunksOfGo n f2 l := by
  intro f1
  induction f1 with
  | zero =>
    intro f2 l h1 _
    have hl : l = [] := List.length_eq_zero.mp (Nat.le_zero.mp h1)
    subst hl
    rw [chunksOfGo_nil, chunksOfGo_nil]
  | succ f ih =>
    intro f2 l h1 h2
    cases l with
    | nil => rw [chunksOfGo_nil, chunksOfGo_nil]
    | cons c t =>
      cases f2 with
      | zero =>
        simp only [List.length_cons] at h2
        omega
      | succ g =>
        rw [chunksOfGo_succ, chunksOfGo_succ]
        congr 1
        apply ih
        · rw [List.length_drop]
          simp only [List.length_cons] at h1 ⊢
          omega
        · rw [List.length_drop]
          simp only [List.length_cons] at h2 ⊢
          omega

/-- Unfolding step of `chunksOf` on a nonempty list. -/
theorem chunksOf_cons_of (n : Nat) (l : List Nat) (hn : n ≠ 0) (hl : l ≠ []) :
    chunksOf n l = l.take n :: chunksOf n (l.drop n) := by
  cases l with
  | nil => exact absurd rfl hl
  | cons c t =>
    simp only [chunksOf, if_neg hn, List.length_cons, chunksOfGo_succ]
    congr 1
    apply chunksOfGo_fuel n hn
    · rw [List.length_drop]
      simp only [List.length_cons]
      omega
    · exact le_rfl

theorem rev_take7_append_complete (x : List Nat) :
    (x ++ COMPLETE_TOKEN).reverse.take 7 = COMPLETE_TOKEN.reverse.take 7 := by
  rw [List.reverse_append, List.take_append_eq_append_take]
  have h0 : 7 - COMPLETE_TOKEN.reverse.length = 0 := by decide
  rw [h0, List.take_zero, List.append_nil]

theorem rev_take7_append_eof (x : List Nat) :
    (x ++ EOF_TOKEN).reverse.take 7 = EOF_TOKEN.reverse.take 7 := by
  rw [List.reverse_append, List.take_append_eq_append_take]
  have h0 : 7 - EOF_TOKEN.reverse.length = 0 := by decide
  rw [h0, List.take_zero, List.append_nil]

/-- For a file larger than one block, the thread-pool fetch stream is
    not the whole-file encoding plus sentinel: at byte offset 1398102
    the chunked stream carries the first block's pad byte 61, while the
    whole-file encoding still carries an alphabet digit there. -/
theorem threadFetchStream_ne_whole (f : List Nat) (hbig : TRANSFER_BLOCK < f.length) :
    threadFetchStream f ≠ b64encode f ++ COMPLETE_TOKEN := by
  intro h
  have hlen : 1048576 < f.length := by
    have h' := hbig
    simp only [TRANSFER_BLOCK] at h'
    exact h'
  have hfne : f ≠ [] := by
    intro hf
    rw [hf] at hlen
    simp at hlen
  have hchunk := chunksOf_cons_of TRANSFER_BLOCK f (by decide) hfne
  have htk : (f.take TRANSFER_BLOCK).length = 1048576 := by
    rw [List.length_take]
    simp only [TRANSFER_BLOCK]
    omega
  have hencl : (b64encode (f.take TRANSFER_BLOCK)).length = 1398104 := by
    rw [b64encode_length, htk]
  have hpads : (b64encode (f.take TRANSFER_BLOCK)).drop 1398102 = [61, 61] := by
    have hmod : (f.take TRANSFER_BLOCK).length % 3 = 1 := by rw [htk]
    have hp := b64encode_drop_last_pads (f.take TRANSFER_BLOCK) hmod
    rw [htk] at hp
    norm_num at hp
    exact hp
  have hL : ((threadFetchStream f).drop 1398102).head? = some 61 := by
    unfold threadFetchStream threadFetchBlocks
    rw [hchunk]
    simp only [List.map_cons, List.flatten_cons, List.append_assoc]
    rw [List.drop_append_eq_append_drop, hpads, hencl]
    norm_num
  have hflen : 1398104 ≤ (b64encode f).length := by
    rw [b64encode_length]
    omega
  have hno : ((b64encode f).drop 1398102).head? ≠ some 61 := by
    have hd := b64encode_drop_ne_61 349525 f (by omega)
    have he : 4 * 349525 + 2 = 1398102 := by norm_num
    rw [he] at hd
    exact hd
  have hR : ((b64encode f ++ COMPLETE_TOKEN).drop 1398102).head? ≠ some 61 := by
    rw [List.drop_append_eq_append_drop]
    cases hdd : (b64encode f).drop 1398102 with
    | nil =>
      have hlen0 := congrArg List.length hdd
      rw [List.length_drop] at hlen0
      simp at hlen0
      omega
    | cons x xs =>
      rw [hdd] at hno
      simp only [List.cons_append, List.head?_cons]
      simpa using hno
  exact hR (by rw [← h]; exact hL)

/-- The two variants' fetch streams always differ: their final seven
    bytes are the `__EOF__` token on one side and the tail of the
    `__COMPLETE__` token on the other. -/
theorem fetch_streams_distinct (f : List Nat) :
    threadFetchStream f ≠ processFetchStream f := by
  intro h
  have h7 : (threadFetchStream f).reverse.take 7
      = (processFetchStream f).reverse.take 7 := by rw [h]
  unfold threadFetchStream processFetchStream at h7
  rw [rev_take7_append_complete, rev_take7_append_eof] at h7
  exact absurd h7 (by decide)

/-- C3 amended: each variant emits the whole-file encoding followed by
    its *own* sentinel — unconditionally for the process-pool variant,
    and for the thread-pool variant exactly when the file fits in one
    1048576-byte block (for a larger file the per-block padding makes
    its payload differ from the whole-file encoding); and the two
    variants' streams are never byte-identical, because the sentinels
    differ. -/
theorem fetch_stream_shapes (f : List Nat) :
    processFetchStream f = b64encode f ++ EOF_TOKEN
      ∧ (f.length ≤ TRANSFER_BLOCK →
          threadFetchStream f = b64encode f ++ COMPLETE_TOKEN)
      ∧ (TRANSFER_BLOCK < f.length →
          threadFetchStream f ≠ b64encode f ++ COMPLETE_TOKEN)
      ∧ threadFetchStream f ≠ processFetchStream f := by
  refine ⟨rfl, fun hle => ?_, fun hbig => threadFetchStream_ne_whole f hbig,
    fetch_streams_distinct f⟩
  unfold threadFetchStream threadFetchBlocks
  cases f with
  | nil => rw [chunksOf_nil]; rfl
  | cons c t =>
    rw [chunksOf_single TRANSFER_BLOCK (c :: t) (by decide) (by simp) hle]
    simp

/-- Witness for `fetch_stream_shapes` at a three-byte file (one-block
    case and cross-variant difference) and at the all-zero 1048577-byte
    file (larger-than-one-block case). -/
theorem fetch_stream_shapes_witness :
    processFetchStream (bytes "abc") = b64encode (bytes "abc") ++ EOF_TOKEN
      ∧ threadFetchStream (bytes "abc") = b64encode (bytes "abc") ++ COMPLETE_TOKEN
      ∧ threadFetchStream (List.replicate 1048577 (0 : Nat))
          ≠ b64encode (List.replicate 1048577 (0 : Nat)) ++ COMPLETE_TOKEN
      ∧ threadFetchStream (bytes "abc") ≠ processFetchStream (bytes "abc") :=
  ⟨(fetch_stream_shapes (bytes "abc")).1,
   (fetch_stream_shapes (bytes "abc")).2.1 (by decide),
   (fetch_stream_shapes (List.replicate 1048577 (0 : Nat))).2.2.1
     (by rw [List.length_replicate]; decide),
   (fetch_stream_shapes (bytes "abc")).2.2.2⟩

/-! Counter bookkeeping: every exit path of either handler bumps
    exactly one of the two shared counters, exactly once. -/

theorem exactlyOne_outerExcept (s : Bool) (sent : List (List Nat)) (st : Storage) :
    exactlyOne (outerExcept s sent st) := by
  simp [exactlyOne, outerExcept]

theorem exactlyOne_threadStoreErr (scn : TScn) (sent : List (List Nat)) (st : Storage) :
    exactlyOne (threadStoreErr scn sent st) := by
  unfold threadStoreErr
  repeat' split
  all_goals first
    | exact exactlyOne_outerExcept ..
    | simp [exactlyOne]

theorem exactlyOne_threadStoreCommit (scn : TScn) (sent : List (List Nat))
    (fname received : List Nat) :
    exactlyOne (threadStoreCommit scn sent fname received) := by
  unfold threadStoreCommit
  repeat' split
  all_goals first
    | exact exactlyOne_threadStoreErr ..
    | exact exactlyOne_outerExcept ..
    | simp [exactlyOne]

theorem exactlyOne_threadStore (scn : TScn) (fname : List Nat) :
    exactlyOne (threadStore scn fname) := by
  unfold threadStore
  repeat' split
  all_goals first
    | exact exactlyOne_threadStoreCommit ..
    | exact exactlyOne_outerExcept ..

theorem exactlyOne_threadFetchErr (scn : TScn) (sent : List (List Nat)) :
    exactlyOne (threadFetchErr scn sent) := by
  unfold threadFetchErr
  repeat' split
  all_goals first
    | exact exactlyOne_outerExcept ..
    | simp [exactlyOne]

theorem exactlyOne_threadFetch (scn : TScn) (fname : List Nat) :
    exactlyOne (threadFetch scn fname) := by
  unfold threadFetch
  repeat' split
  all_goals first
    | exact exactlyOne_threadFetchErr ..
    | exact exactlyOne_outerExcept ..
    | simp [exactlyOne]

theorem exactlyOne_threadDispatch (scn : TScn) (parts : List (List Nat)) :
    exactlyOne (threadDispatch scn parts) := by
  unfold threadDispatch
  dsimp only
  repeat' split
  all_goals first
    | exact exactlyOne_threadStore ..
    | exact exactlyOne_threadFetch ..
    | exact exactlyOne_outerExcept ..
    | simp [exactlyOne]

theorem exactlyOne_thread (scn : TScn) : exactlyOne (process_client_request scn) := by
  unfold process_client_request
  repeat' split
  all_goals first
    | exact exactlyOne_threadDispatch ..
    | exact exactlyOne_outerExcept ..
    | simp [exactlyOne]

theorem exactlyOne_processUpload (scn : PScn) (fname : List Nat) :
    exactlyOne (processUpload scn fname) := by
  unfold processUpload
  dsimp only
  repeat' split
  all_goals first
    | exact exactlyOne_outerExcept ..
    | simp [exactlyOne]

theorem exactlyOne_processDownload (scn : PScn) (fname : List Nat) :
    exactlyOne (processDownload scn fname) := by
  unfold processDownload
  dsimp only
  repeat' split
  all_goals first
    | exact exactlyOne_outerExcept ..
    | simp [exactlyOne]

theorem exactlyOne_processDispatch (scn : PScn) (parts : List (List Nat)) :
    exactlyOne (processDispatch scn parts) := by
  unfold processDispatch
  dsimp only
  repeat' split
  all_goals first
    | exact exactlyOne_processUpload ..
    | exact exactlyOne_processDownload ..
    | exact exactlyOne_outerExcept ..
    | simp [exactlyOne]

theorem exactlyOne_process (scn : PScn) : exactlyOne (manage_connection scn) := by
  unfold manage_connection
  dsimp only
  repeat' split
  all_goals first
    | exact exactlyOne_processDispatch ..
    | exact exactlyOne_outerExcept ..
    | simp [exactlyOne]

/-- C4: on every terminating path of either connection handler —
    success, protocol error, resource error, I/O error, any raised
    exception, timeout — exactly one of the two shared operation
    counters is incremented, and by exactly one. -/
theorem counters_exactly_once_per_connection :
    (∀ t : TScn, exactlyOne (process_client_request t))
      ∧ (∀ p : PScn, exactlyOne (manage_connection p)) :=
  ⟨exactlyOne_thread, exactlyOne_process⟩

/-! Case handling of the command word. -/

theorem pyUpperByte_idem (c : Nat) : pyUpperByte (pyUpperByte c) = pyUpperByte c := by
  unfold pyUpperByte
  repeat' split
  all_goals omega

theorem pyUpper_idem (l : List Nat) : pyUpper (pyUpper l) = pyUpper l := by
  induction l with
  | nil => rfl
  | cons c t ih =>
    simp only [pyUpper, List.map_cons] at ih ⊢
    rw [pyUpperByte_idem]
    exact congrArg _ ih

/-- C10: both dispatchers act only on the uppercased first token, so
    command words are accepted case-insensitively, and the filename
    token that follows is handed to the sub-protocol verbatim (a
    lowercase command word dispatches to the same branch applied to
    the unchanged filename). -/
theorem commands_case_insensitive (scn : TScn) (pscn : PScn)
    (cmd : List Nat) (args : List (List Nat)) (f : List Nat) :
    threadDispatch scn (cmd :: args) = threadDispatch scn (pyUpper cmd :: args)
      ∧ processDispatch pscn (cmd :: args) = processDispatch pscn (pyUpper cmd :: args)
      ∧ threadDispatch scn (bytes "fetch" :: f :: args) = threadFetch scn f
      ∧ threadDispatch scn (bytes "store" :: f :: args) = threadStore scn f
      ∧ processDispatch pscn (bytes "upload" :: f :: args) = processUpload pscn f
      ∧ processDispatch pscn (bytes "download" :: f :: args) = processDownload pscn f := by
  refine ⟨?_, ?_, ?_, ?_, ?_, ?_⟩
  · unfold threadDispatch
    dsimp only
    rw [pyUpper_idem]
  · unfold processDispatch
    dsimp only
    rw [pyUpper_idem]
  · unfold threadDispatch
    dsimp only
    rw [if_neg (by decide), if_neg (by decide), if_pos (by decide)]
  · unfold threadDispatch
    dsimp only
    rw [if_neg (by decide), if_pos (by decide)]
  · unfold processDispatch
    dsimp only
    rw [if_neg (by decide), if_pos (by decide)]
  · unfold processDispatch
    dsimp only
    rw [if_neg (by decide), if_neg (by decide), if_pos (by decide)]

/-- C5 counterexample: on a connection whose first line is empty, both
    handlers count a failure and close *without sending any byte*, so
    no textual response describes the failure even though the socket is
    perfectly writable (every send in the scenario would succeed). -/
theorem empty_line_no_response :
    (process_client_request { tScn0 with firstRecv := some [] }).sent = []
      ∧ (process_client_request { tScn0 with firstRecv := some [] }).dF = 1
      ∧ (manage_connection { pScn0 with firstRecv := some [] }).sent = []
      ∧ (manage_connection { pScn0 with firstRecv := some [] }).dF = 1 := by
  decide

/-- C5 amended: unknown commands and missing required filenames get a
    textual response and one failure count from both variants, and a
    whitespace-only (but nonempty) first line gets `Invalid request
    format` from the thread-pool variant; however an empty first line
    (both variants) and a whitespace-only first line (process-pool
    variant, which strips before the emptiness test) produce *no*
    response — the connection is closed after only counting the
    failure. -/
theorem protocol_error_responses (scn : TScn) (pscn : PScn) :
    ((process_client_request { scn with firstRecv := some [] }).sent = []
        ∧ (process_client_request { scn with firstRecv := some [] }).dF = 1)
    ∧ (∀ line, pyStrip line = [] →
        (manage_connection { pscn with firstRecv := some line }).sent = []
          ∧ (manage_connection { pscn with firstRecv := some line }).dF = 1)
    ∧ (scn.sInvalid = true →
        (threadDispatch scn []).sent = [bytes "Invalid request format"]
          ∧ (threadDispatch scn []).dF = 1)
    ∧ (∀ cmd args, pyUpper cmd ≠ bytes "DIRECTORY" → pyUpper cmd ≠ bytes "STORE" →
        pyUpper cmd ≠ bytes "FETCH" → scn.sUnknown = true →
        (threadDispatch scn (cmd :: args)).sent = [bytes "Unrecognized command"]
          ∧ (threadDispatch scn (cmd :: args)).dF = 1)
    ∧ (∀ cmd args, pyUpper cmd ≠ bytes "LIST" → pyUpper cmd ≠ bytes "UPLOAD" →
        pyUpper cmd ≠ bytes "DOWNLOAD" → pscn.sUnknown = true →
        (processDispatch pscn (cmd :: args)).sent = [bytes "Unknown operation"]
          ∧ (processDispatch pscn (cmd :: args)).dF = 1)
    ∧ (scn.sStoreNeedName = true →
        (threadDispatch scn [bytes "STORE"]).sent = [bytes "Filename required"]
          ∧ (threadDispatch scn [bytes "STORE"]).dF = 1)
    ∧ (scn.sFetchNeedName = true →
        (threadDispatch scn [bytes "FETCH"]).sent = [bytes "Filename required"]
          ∧ (threadDispatch scn [bytes "FETCH"]).dF = 1)
    ∧ (pscn.sUpNeedName = true →
        (processDispatch pscn [bytes "UPLOAD"]).sent = [bytes "Missing filename"]
          ∧ (processDispatch pscn [bytes "UPLOAD"]).dF = 1)
    ∧ (pscn.sDownNeedName = true →
        (processDispatch pscn [bytes "DOWNLOAD"]).sent = [bytes "Missing filename"]
          ∧ (processDispatch pscn [bytes "DOWNLOAD"]).dF = 1) := by
  refine ⟨?_, ?_, ?_, ?_, ?_, ?_, ?_, ?_, ?_⟩
  · simp [process_client_request]
  · intro line hst
    unfold manage_connection
    dsimp only
    rw [hst]
    simp
  · intro hs
    unfold threadDispatch
    rw [if_pos hs]
    exact ⟨rfl, rfl⟩
  · intro cmd args h1 h2 h3 hs
    unfold threadDispatch
    dsimp only
    rw [if_neg h1, if_neg h2, if_neg h3, if_pos hs]
    exact ⟨rfl, rfl⟩
  · intro cmd args h1 h2 h3 hs
    unfold processDispatch
    dsimp only
    rw [if_neg h1, if_neg h2, if_neg h3, if_pos hs]
    exact ⟨rfl, rfl⟩
  · intro hs
    unfold threadDispatch
    dsimp only
    rw [if_neg (by decide), if_pos (by decide)]
    rw [if_pos hs]
    exact ⟨rfl, rfl⟩
  · intro hs
    unfold threadDispatch
    dsimp only
    rw [if_neg (by decide), if_neg (by decide), if_pos (by decide)]
    rw [if_pos hs]
    exact ⟨rfl, rfl⟩
  · intro hs
    unfold processDispatch
    dsimp only
    rw [if_neg (by decide), if_pos (by decide)]
    rw [if_pos hs]
    exact ⟨rfl, rfl⟩
  · intro hs
    unfold processDispatch
    dsimp only
    rw [if_neg (by decide), if_neg (by decide), if_pos (by decide)]
    rw [if_pos hs]
    exact ⟨rfl, rfl⟩

/-- Witness for `protocol_error_responses` at concrete scenarios (all
    sends succeeding, unknown command `PING`). -/
theorem protocol_error_responses_witness :
    ((process_client_request { tScn0 with firstRecv := some [] }).sent = []
        ∧ (process_client_request { tScn0 with firstRecv := some [] }).dF = 1)
      ∧ ((manage_connection { pScn0 with firstRecv := some (bytes "  ") }).sent = []
        ∧ (manage_connection { pScn0 with firstRecv := some (bytes "  ") }).dF = 1)
      ∧ ((threadDispatch tScn0 []).sent = [bytes "Invalid request format"]
        ∧ (threadDispatch tScn0 []).dF = 1)
      ∧ ((threadDispatch tScn0 [bytes "PING"]).sent = [bytes "Unrecognized command"]
        ∧ (threadDispatch tScn0 [bytes "PING"]).dF = 1)
      ∧ ((processDispatch pScn0 [bytes "PING"]).sent = [bytes "Unknown operation"]
        ∧ (processDispatch pScn0 [bytes "PING"]).dF = 1)
      ∧ ((threadDispatch tScn0 [bytes "STORE"]).sent = [bytes "Filename required"]
        ∧ (threadDispatch tScn0 [bytes "STORE"]).dF = 1)
      ∧ ((threadDispatch tScn0 [bytes "FETCH"]).sent = [bytes "Filename required"]
        ∧ (threadDispatch tScn0 [bytes "FETCH"]).dF = 1)
      ∧ ((processDispatch pScn0 [bytes "UPLOAD"]).sent = [bytes "Missing filename"]
        ∧ (processDispatch pScn0 [bytes "UPLOAD"]).dF = 1)
      ∧ ((processDispatch pScn0 [bytes "DOWNLOAD"]).sent = [bytes "Missing filename"]
        ∧ (processDispatch pScn0 [bytes "DOWNLOAD"]).dF = 1) :=
  ⟨(protocol_error_responses tScn0 pScn0).1,
   (protocol_error_responses tScn0 pScn0).2.1 (bytes "  ") (by decide),
   (protocol_error_responses tScn0 pScn0).2.2.1 (by decide),
   (protocol_error_responses tScn0 pScn0).2.2.2.1 (bytes "PING") []
     (by decide) (by decide) (by decide) (by decide),
   (protocol_error_responses tScn0 pScn0).2.2.2.2.1 (bytes "PING") []
     (by decide) (by decide) (by decide) (by decide),
   (protocol_error_responses tScn0 pScn0).2.2.2.2.2.1 (by decide),
   (protocol_error_responses tScn0 pScn0).2.2.2.2.2.2.1 (by decide),
   (protocol_error_responses tScn0 pScn0).2.2.2.2.2.2.2.1 (by decide),
   (protocol_error_responses tScn0 pScn0).2.2.2.2.2.2.2.2 (by decide)⟩

/-- C6 counterexample: a connection sending first line `LIST` to the
    *thread-pool* server is rejected as an unrecognized command and
    counted as a failure — that variant understands `DIRECTORY`,
    `STORE` and `FETCH` instead of `LIST`, `UPLOAD` and `DOWNLOAD`. -/
theorem list_rejected_by_thread_variant :
    (process_client_request
        { tScn0 with firstRecv := some (bytes "LIST"),
                     storage := [(bytes "a.txt", bytes "hi")] }).sent
      = [bytes "Unrecognized command"]
      ∧ (process_client_request
          { tScn0 with firstRecv := some (bytes "LIST"),
                       storage := [(bytes "a.txt", bytes "hi")] }).dF = 1 := by
  decide

/-- C6 amended: the *process-pool* variant dispatches `LIST` (newline-
    joined filenames or the `Empty directory` marker, never a failure
    count), `UPLOAD <filename>` (the upload sub-protocol, whose first
    send is `PROCEED`) and `DOWNLOAD <filename>` (the download
    sub-protocol); the *thread-pool* variant offers the same service
    under `DIRECTORY` / `STORE` / `FETCH` instead, rejecting `LIST`,
    `UPLOAD` and `DOWNLOAD` as unrecognized commands. -/
theorem command_dispatch_by_variant (scn : TScn) (pscn : PScn) (f : List Nat) :
    (pscn.sList = true →
      (processDispatch pscn [bytes "LIST"]).sent = [executeListFiles pscn.storage]
        ∧ (processDispatch pscn [bytes "LIST"]).dS = 1
        ∧ (processDispatch pscn [bytes "LIST"]).dF = 0)
    ∧ executeListFiles [] = bytes "Empty directory"
    ∧ (pscn.sProceed = true →
        (processDispatch pscn [bytes "UPLOAD", f]).sent.head? = some (bytes "PROCEED"))
    ∧ processDispatch pscn [bytes "DOWNLOAD", f] = processDownload pscn f
    ∧ (scn.sDirList = true →
        (threadDispatch scn [bytes "DIRECTORY"]).sent
            = [if scn.storage.map Prod.fst = [] then bytes "Directory empty"
               else List.intercalate [10] (scn.storage.map Prod.fst)]
          ∧ (threadDispatch scn [bytes "DIRECTORY"]).dS = 1
          ∧ (threadDispatch scn [bytes "DIRECTORY"]).dF = 0)
    ∧ threadDispatch scn [bytes "STORE", f] = threadStore scn f
    ∧ threadDispatch scn [bytes "FETCH", f] = threadFetch scn f
    ∧ (scn.sUnknown = true →
        (threadDispatch scn [bytes "LIST"]).sent = [bytes "Unrecognized command"]
          ∧ (threadDispatch scn [bytes "LIST"]).dF = 1)
    ∧ (scn.sUnknown = true →
        (threadDispatch scn [bytes "UPLOAD", f]).sent = [bytes "Unrecognized command"]
          ∧ (threadDispatch scn [bytes "UPLOAD", f]).dF = 1)
    ∧ (scn.sUnknown = true →
        (threadDispatch scn [bytes "DOWNLOAD", f]).sent = [bytes "Unrecognized command"]
          ∧ (threadDispatch scn [bytes "DOWNLOAD", f]).dF = 1) := by
  refine ⟨?_, rfl, ?_, ?_, ?_, ?_, ?_, ?_, ?_, ?_⟩
  · intro hs
    unfold processDispatch
    dsimp only
    rw [if_pos (by decide), if_pos hs]
    exact ⟨rfl, rfl, rfl⟩
  · intro hs
    unfold processDispatch
    dsimp only
    rw [if_neg (by decide), if_pos (by decide)]
    unfold processUpload
    rw [if_pos hs]
    cases recvUntilToken EOF_TOKEN pscn.uploadReads with
    | none => simp [outerExcept]
    | some received =>
      dsimp only
      repeat' split
      all_goals simp [outerExcept]
  · unfold processDispatch
    dsimp only
    rw [if_neg (by decide), if_neg (by decide), if_pos (by decide)]
  · intro hs
    unfold threadDispatch
    dsimp only
    rw [if_pos (by decide), if_pos hs]
    exact ⟨rfl, rfl, rfl⟩
  · unfold threadDispatch
    dsimp only
    rw [if_neg (by decide), if_pos (by decide)]
  · unfold threadDispatch
    dsimp only
    rw [if_neg (by decide), if_neg (by decide), if_pos (by decide)]
  · intro hs
    unfold threadDispatch
    dsimp only
    rw [if_neg (by decide), if_neg (by decide), if_neg (by decide), if_pos hs]
    exact ⟨rfl, rfl⟩
  · intro hs
    unfold threadDispatch
    dsimp only
    rw [if_neg (by decide), if_neg (by decide), if_neg (by decide), if_pos hs]
    exact ⟨rfl, rfl⟩
  · intro hs
    unfold threadDispatch
    dsimp only
    rw [if_neg (by decide), if_neg (by decide), if_neg (by decide), if_pos hs]
    exact ⟨rfl, rfl⟩

/-- Witness for `command_dispatch_by_variant` at concrete scenarios. -/
theorem command_dispatch_by_variant_witness :
    ((processDispatch pScn0 [bytes "LIST"]).sent = [executeListFiles pScn0.storage]
        ∧ (processDispatch pScn0 [bytes "LIST"]).dS = 1
        ∧ (processDispatch pScn0 [bytes "LIST"]).dF = 0)
      ∧ (processDispatch pScn0 [bytes "UPLOAD", bytes "f.txt"]).sent.head?
          = some (bytes "PROCEED")
      ∧ ((threadDispatch tScn0 [bytes "DIRECTORY"]).sent
            = [if tScn0.storage.map Prod.fst = [] then bytes "Directory empty"
               else List.intercalate [10] (tScn0.storage.map Prod.fst)]
          ∧ (threadDispatch tScn0 [bytes "DIRECTORY"]).dS = 1
          ∧ (threadDispatch tScn0 [bytes "DIRECTORY"]).dF = 0)
      ∧ ((threadDispatch tScn0 [bytes "LIST"]).sent = [bytes "Unrecognized command"]
          ∧ (threadDispatch tScn0 [bytes "LIST"]).dF = 1)
      ∧ ((threadDispatch tScn0 [bytes "UPLOAD", bytes "f.txt"]).sent
            = [bytes "Unrecognized command"]
          ∧ (threadDispatch tScn0 [bytes "UPLOAD", bytes "f.txt"]).dF = 1)
      ∧ ((threadDispatch tScn0 [bytes "DOWNLOAD", bytes "f.txt"]).sent
            = [bytes "Unrecognized command"]
          ∧ (threadDispatch tScn0 [bytes "DOWNLOAD", bytes "f.txt"]).dF = 1) :=
  ⟨(command_dispatch_by_variant tScn0 pScn0 (bytes "f.txt")).1 (by decide),
   (command_dispatch_by_variant tScn0 pScn0 (bytes "f.txt")).2.2.1 (by decide),
   (command_dispatch_by_variant tScn0 pScn0 (bytes "f.txt")).2.2.2.2.1 (by decide),
   (command_dispatch_by_variant tScn0 pScn0 (bytes "f.txt")).2.2.2.2.2.2.2.1 (by decide),
   (command_dispatch_by_variant tScn0 pScn0 (bytes "f.txt")).2.2.2.2.2.2.2.2.1 (by decide),
   (command_dispatch_by_variant tScn0 pScn0 (bytes "f.txt")).2.2.2.2.2.2.2.2.2 (by decide)⟩

/-- C8: a download request naming a filename absent from the storage
    root makes both variants send exactly the `File unavailable`
    marker, count one failure (and no success), and leave the storage
    root unchanged; the handlers are total functions of the scenario,
    so no exception escapes this path. -/
theorem download_missing_file (scn : TScn) (pscn : PScn) (f : List Nat)
    (ht : storeGet scn.storage f = none) (hp : storeGet pscn.storage f = none)
    (hs1 : scn.sUnavailable = true) (hs2 : pscn.sUnavailResp = true) :
    (threadDispatch scn [bytes "FETCH", f]).sent = [bytes "File unavailable"]
      ∧ (threadDispatch scn [bytes "FETCH", f]).dS = 0
      ∧ (threadDispatch scn [bytes "FETCH", f]).dF = 1
      ∧ (threadDispatch scn [bytes "FETCH", f]).storage = scn.storage
      ∧ (processDispatch pscn [bytes "DOWNLOAD", f]).sent = [bytes "File unavailable"]
      ∧ (processDispatch pscn [bytes "DOWNLOAD", f]).dS = 0
      ∧ (processDispatch pscn [bytes "DOWNLOAD", f]).dF = 1
      ∧ (processDispatch pscn [bytes "DOWNLOAD", f]).storage = pscn.storage := by
  have hthread : threadDispatch scn [bytes "FETCH", f] = threadFetch scn f := by
    unfold threadDispatch
    dsimp only
    rw [if_neg (by decide), if_neg (by decide), if_pos (by decide)]
  have hproc : processDispatch pscn [bytes "DOWNLOAD", f] = processDownload pscn f := by
    unfold processDispatch
    dsimp only
    rw [if_neg (by decide), if_neg (by decide), if_pos (by decide)]
  rw [hthread, hproc]
  unfold threadFetch processDownload executeRetrieveFile
  rw [ht, hp]
  dsimp only
  rw [if_pos hs1, if_pos (by decide), if_pos hs2]
  exact ⟨rfl, rfl, rfl, rfl, rfl, rfl, rfl, rfl⟩

/-- Witness for `download_missing_file`: empty storage root, filename
    `x.txt`, all sends succeeding. -/
theorem download_missing_file_witness :
    storeGet tScn0.storage (bytes "x.txt") = none
      ∧ (threadDispatch tScn0 [bytes "FETCH", bytes "x.txt"]).sent
          = [bytes "File unavailable"]
      ∧ (threadDispatch tScn0 [bytes "FETCH", bytes "x.txt"]).dF = 1
      ∧ (threadDispatch tScn0 [bytes "FETCH", bytes "x.txt"]).storage = tScn0.storage
      ∧ (processDispatch pScn0 [bytes "DOWNLOAD", bytes "x.txt"]).sent
          = [bytes "File unavailable"]
      ∧ (processDispatch pScn0 [bytes "DOWNLOAD", bytes "x.txt"]).dF = 1
      ∧ (processDispatch pScn0 [bytes "DOWNLOAD", bytes "x.txt"]).storage
          = pScn0.storage := by
  have h := download_missing_file tScn0 pScn0 (bytes "x.txt")
    (by decide) (by decide) (by decide) (by decide)
  exact ⟨by decide, h.1, h.2.2.1, h.2.2.2.1, h.2.2.2.2.1, h.2.2.2.2.2.2.1,
    h.2.2.2.2.2.2.2⟩
